import Mathlib

/-!
Verification of the YTdownloader core logic (src/downloader.py):
the download-options builder (`YTDLDownloader._build_opts`), the
progress normalizer (`App._update_progress` together with
`YTDLDownloader._progress_hook`), and the busy-flag serialization of
downloads (`App._start_download_thread` / `App._download_action`).

The Python code is shallowly embedded: dictionaries become structures,
the in-place mutation of the App's progress fields becomes explicit
state passing, and Python's unbounded ints become `Int`.
-/

/-! ## Progress normalizer (`App._update_progress`, lines 625-670)

The App object stores two fields, `_max_seen_pct` and `_stable_pct`,
lazily initialized to 0 the first time `_update_progress` runs and
mutated on every subsequent call.  We carry them as an explicit state.
-/

structure ProgressState where
  max_seen_pct : Int
  stable_pct : Int
deriving DecidableEq, Repr

/-- The state after lazy initialization (`self._stable_pct = 0`,
`self._max_seen_pct = 0`, lines 636-638), which is also the state
installed by the reset at 100% (lines 668-670). -/
def initState : ProgressState := ⟨0, 0⟩

/-- One call of `App._update_progress(pct)` (lines 640-670).
Returns the new state and the displayed percentage (`none` when the
event is discarded by the range check at line 641; the progress-bar
write at line 657 and the status text at line 660 both show the
clamped value). -/
def update_progress (s : ProgressState) (pct : Int) : ProgressState × Option Int :=
  -- line 641: nonsense values are discarded
  if pct < 0 ∨ 1000 < pct then (s, none)
  else
    -- lines 645-647: backward jumps are clamped up to max-seen
    let pct1 := if pct < s.max_seen_pct then s.max_seen_pct else pct
    -- lines 650-651: trackers updated
    let max2 := max s.max_seen_pct pct1
    -- line 654: clamp strictly between 0-100 for display
    let disp := max 0 (min 100 pct1)
    -- lines 668-670: on reaching 100, both trackers reset to 0
    if disp = 100 then (initState, some disp)
    else ({ max_seen_pct := max2, stable_pct := pct1 }, some disp)

/-- The raw percentage that `YTDLDownloader._progress_hook` (lines 77-99)
feeds to the UI progress callback for each yt-dlp event.  A `downloading`
event carries `int(downloaded / total * 100)` when a total is known
(float division idealized as exact, then truncated; both counters are
byte counts, hence `Nat`) and 0 otherwise; a `finished` event sends 100;
`error` and unrecognized statuses send nothing (only a log line). -/
inductive HookEvent where
  | downloading (total_bytes downloaded_bytes : Nat)
  | finished
  | error
  | unknown
deriving DecidableEq, Repr

def hook_percent : HookEvent → Option Int
  | .downloading total downloaded =>
      some (if total = 0 then 0 else ((downloaded * 100) / total : Nat))
  | .finished => some 100
  | .error => none
  | .unknown => none

/-- Feed a list of raw percentages through `_update_progress`, collecting
the displayed values in order.  No reset happens between list elements:
this is exactly how the App's fields evolve over successive calls, also
across download boundaries (no other code touches the two fields). -/
def run_displays (s : ProgressState) : List Int → List Int
  | [] => []
  | p :: ps =>
    match update_progress s p with
    | (s', none) => run_displays s' ps
    | (s', some d) => d :: run_displays s' ps

/-- The prefix of a display sequence up to and including the first
displayed 100 (the terminal event of one logical download). -/
def take_upto_100 : List Int → List Int
  | [] => []
  | d :: ds => if d = 100 then [100] else d :: take_upto_100 ds

lemma run_displays_drop (s : ProgressState) (p : Int) (ps : List Int)
    (s' : ProgressState) (h : update_progress s p = (s', none)) :
    run_displays s (p :: ps) = run_displays s' ps := by
  simp [run_displays, h]

lemma run_displays_show (s : ProgressState) (p : Int) (ps : List Int)
    (s' : ProgressState) (d : Int) (h : update_progress s p = (s', some d)) :
    run_displays s (p :: ps) = d :: run_displays s' ps := by
  simp [run_displays, h]

/-- Out-of-range events are discarded with no state change (line 641). -/
lemma update_progress_out_of_range (s : ProgressState) (p : Int)
    (h : p < 0 ∨ 1000 < p) : update_progress s p = (s, none) := by
  simp only [update_progress]
  rw [if_pos h]

/-- An in-range event whose clamped-up percentage reaches 100 displays
100 and resets the state (lines 645-670). -/
lemma update_progress_hit100 (s : ProgressState) (p : Int)
    (h0 : 0 ≤ p) (h1 : p ≤ 1000) (h2 : 100 ≤ max s.max_seen_pct p) :
    update_progress s p = (initState, some 100) := by
  simp only [update_progress]
  rw [if_neg (by omega)]
  have hd : max 0 (min 100 (if p < s.max_seen_pct then s.max_seen_pct else p))
      = 100 := by
    split <;> omega
  rw [hd]
  simp

/-- An in-range event whose clamped-up percentage stays below 100
displays it and stores it in both trackers (lines 645-661). -/
lemma update_progress_norm (s : ProgressState) (p : Int)
    (h0 : 0 ≤ p) (h1 : p ≤ 1000) (h2 : max s.max_seen_pct p < 100) :
    update_progress s p =
      (⟨max s.max_seen_pct p, max s.max_seen_pct p⟩,
       some (max s.max_seen_pct p)) := by
  simp only [update_progress]
  rw [if_neg (by omega)]
  have hp1 : (if p < s.max_seen_pct then s.max_seen_pct else p)
      = max s.max_seen_pct p := by
    split <;> omega
  rw [hp1]
  have hd : max 0 (min 100 (max s.max_seen_pct p)) = max s.max_seen_pct p := by
    omega
  rw [hd, if_neg (by omega : ¬ max s.max_seen_pct p = 100)]
  have hm : max s.max_seen_pct (max s.max_seen_pct p) = max s.max_seen_pct p := by
    omega
  rw [hm]

/-- Whenever a call displays 100, the state it leaves behind is the
reset state (lines 668-670). -/
lemma update_progress_reset (s : ProgressState) (p : Int) (s' : ProgressState)
    (h : update_progress s p = (s', some 100)) : s' = initState := by
  by_cases hout : p < 0 ∨ 1000 < p
  · rw [update_progress_out_of_range s p hout] at h
    simp at h
  · push_neg at hout
    rcases le_or_lt 100 (max s.max_seen_pct p) with hb | hs
    · rw [update_progress_hit100 s p hout.1 hout.2 hb] at h
      injection h with h1 _
      exact h1.symm
    · rw [update_progress_norm s p hout.1 hout.2 hs] at h
      injection h with _ h2
      injection h2 with h2
      omega

/-- A raw value of exactly 100 (what the hook sends on `finished`)
always displays as 100, whatever the current state. -/
lemma update_progress_at_100 (s : ProgressState) :
    (update_progress s 100).2 = some 100 := by
  rw [update_progress_hit100 s 100 (by norm_num) (by norm_num) (by omega)]

/-- Monotonicity of displayed values within one logical download:
as long as max-seen stays below 100, the displays up to and including
the first 100 never decrease, and the first display is at least the
incoming max-seen. -/
lemma run_mono (ps : List Int) : ∀ s : ProgressState,
    s.max_seen_pct < 100 →
    List.Chain' (fun a b => a ≤ b) (take_upto_100 (run_displays s ps)) ∧
    ∀ d, (take_upto_100 (run_displays s ps)).head? = some d →
      s.max_seen_pct ≤ d := by
  induction ps with
  | nil =>
    intro s _
    simp [run_displays, take_upto_100]
  | cons p ps ih =>
    intro s hs
    by_cases hout : p < 0 ∨ 1000 < p
    · rw [run_displays_drop s p ps s (update_progress_out_of_range s p hout)]
      exact ih s hs
    · push_neg at hout
      obtain ⟨hp0, hp1000⟩ := hout
      rcases le_or_lt 100 (max s.max_seen_pct p) with hbig | hsmall
      · rw [run_displays_show s p ps initState 100
            (update_progress_hit100 s p hp0 hp1000 hbig)]
        have ht : take_upto_100 (100 :: run_displays initState ps) = [100] := by
          simp [take_upto_100]
        rw [ht]
        refine ⟨by simp, ?_⟩
        intro d hd
        simp only [List.head?_cons, Option.some.injEq] at hd
        omega
      · rw [run_displays_show s p ps ⟨max s.max_seen_pct p, max s.max_seen_pct p⟩
            (max s.max_seen_pct p) (update_progress_norm s p hp0 hp1000 hsmall)]
        have ht : take_upto_100
              (max s.max_seen_pct p ::
                run_displays ⟨max s.max_seen_pct p, max s.max_seen_pct p⟩ ps)
            = max s.max_seen_pct p ::
                take_upto_100
                  (run_displays ⟨max s.max_seen_pct p, max s.max_seen_pct p⟩ ps) := by
          simp [take_upto_100, hsmall.ne]
        rw [ht]
        obtain ⟨ihc, ihh⟩ :=
          ih ⟨max s.max_seen_pct p, max s.max_seen_pct p⟩ hsmall
        refine ⟨List.chain'_cons'.mpr ⟨fun y hy => ihh y hy, ihc⟩, ?_⟩
        intro d hd
        simp only [List.head?_cons, Option.some.injEq] at hd
        omega

/-! ## Options builder (`YTDLDownloader._build_opts`, lines 101-170)

The yt-dlp options dictionary becomes a structure.  Keys that are
present from the start are plain fields; keys added only on some paths
are `Option` fields (`none` = key absent).  The `progress_hooks` entry
(a list of callbacks, line 107) carries no data and is omitted.
`ffmpeg : Option String` is the directory of the ffmpeg binary when
`shutil.which("ffmpeg")` finds it on PATH (`os.path.dirname` applied,
lines 119-122), `none` when `has_ffmpeg()` is false.  The `self._log`
calls are collected as a returned list of log lines. -/

structure Postprocessor where
  key : String
  preferredcodec : String
  preferredquality : String
deriving DecidableEq, Repr

structure OptsRecord where
  outtmpl : String
  noplaylist : Bool
  quiet : Bool
  no_warnings : Bool
  writesubtitles : Bool
  writeautomaticsub : Bool
  writethumbnail : Bool
  skip_download : Bool
  ffmpeg_location : String
  format : Option String
  postprocessors : List Postprocessor
  abort_on_unavailable_fragments : Option Bool
  writedescription : Option Bool
  writeinfojson : Option Bool
deriving DecidableEq, Repr

/-- `int(re.sub(r"[^0-9]", "", quality_label))` (line 144): strip all
non-digit characters, then parse; `int("")` raises, which the source
catches and turns into the `"best"` fallback, so the parse is `none`
exactly when the label has no digit. -/
def parse_quality (quality_label : String) : Option Nat :=
  let digits := quality_label.data.filter Char.isDigit
  if digits.isEmpty then none
  else some (digits.foldl (fun n c => n * 10 + (c.toNat - 48)) 0)

/-- The resolution-specific format expression of line 145. -/
def video_format_expr (h : Nat) : String :=
  "bestvideo[height<=" ++ toString h ++ "]+bestaudio/best[height<=" ++
    toString h ++ "]"

/-- The log line emitted at line 157 when ffmpeg is missing in video mode. -/
def fallback_log_line : String :=
  "ffmpeg not found — will prefer single-file mp4 to prevent merge errors if necessary."

/-- `YTDLDownloader._build_opts` (lines 101-170).  Arguments follow the
source signature, with the detected ffmpeg directory made explicit.
`fmt` is accepted but never read, exactly as in the source.  Returns
the options record and the list of log lines emitted during the build. -/
def build_opts (out_dir : String) (ffmpeg : Option String) (fmt : String)
    (to_mp3 save_subs save_thumb save_meta : Bool)
    (quality_label : String) (mp3_bitrate : Option String) :
    OptsRecord × List String :=
  -- lines 104-116: the base dictionary
  let opts : OptsRecord := {
    outtmpl := out_dir ++ "/%(title)s.%(ext)s"
    noplaylist := true
    quiet := true
    no_warnings := true
    writesubtitles := save_subs
    writeautomaticsub := save_subs
    writethumbnail := save_thumb
    skip_download := false
    ffmpeg_location := "C:\\ffmpeg\\bin"
    format := none
    postprocessors := []
    abort_on_unavailable_fragments := none
    writedescription := none
    writeinfojson := none }
  -- lines 119-122: point yt-dlp at the detected ffmpeg folder
  let opts := match ffmpeg with
    | some dir => { opts with ffmpeg_location := dir }
    | none => opts
  -- lines 127-137: MP3 mode returns immediately
  if to_mp3 then
    let bitrate := match mp3_bitrate with
      | none => "192"
      | some s => if s = "" then "192" else s  -- Python `or`: "" is falsy
    ({ opts with
        format := some "bestaudio/best"
        postprocessors := [{ key := "FFmpegExtractAudio",
                             preferredcodec := "mp3",
                             preferredquality := bitrate }] }, [])
  else
    -- lines 142-149: video mode, try a specific resolution
    let requested_format :=
      if quality_label ≠ "" ∧ quality_label ≠ "auto" then
        match parse_quality quality_label with
        | some h => video_format_expr h
        | none => "best"
      else "best"
    -- lines 155-161: missing ffmpeg forces the single-file fallback
    let pair : OptsRecord × List String :=
      match ffmpeg with
      | none =>
          ({ opts with
              format := some "best[ext=mp4]/best"
              abort_on_unavailable_fragments := some false },
           [fallback_log_line])
      | some _ => ({ opts with format := some requested_format }, [])
    -- lines 166-168: metadata options
    let final := if save_meta then
        { pair.1 with writedescription := some true, writeinfojson := some true }
      else pair.1
    (final, pair.2)

/-! ## Busy flag (`App._start_download_thread` lines 749-751,
`App._download_action` lines 753-769)

The observable state is the `downloading` flag plus the number of live
worker threads.  `_start_download_thread` checks the flag and either
returns without doing anything or spawns one worker;
`_download_action` sets the flag as the worker begins and clears it
(and lets the worker die) when the download call returns. -/

structure AppState where
  downloading : Bool
  active_workers : Nat
deriving DecidableEq, Repr

/-- `App._start_download_thread` (lines 749-751): if the busy flag is
set, return immediately; otherwise spawn one worker thread.  The `Bool`
result records whether a worker was spawned. -/
def start_download_thread (s : AppState) : AppState × Bool :=
  if s.downloading then (s, false)
  else ({ s with active_workers := s.active_workers + 1 }, true)

/-- Entry of `App._download_action` (line 756): the worker sets the
busy flag. -/
def download_action_begin (s : AppState) : AppState :=
  { s with downloading := true }

/-- Exit of `App._download_action` (line 769): the worker clears the
busy flag and terminates. -/
def download_action_end (s : AppState) : AppState :=
  { s with downloading := false, active_workers := s.active_workers - 1 }

inductive UiEvent where
  | start
  | finish
deriving DecidableEq, Repr

/-- One observable event of the app: a click on Download (line 749,
with the spawned worker promptly reaching line 756), or a worker
completing (line 769; ignored when no worker is live). -/
def app_step (s : AppState) : UiEvent → AppState
  | .start =>
      let p := start_download_thread s
      if p.2 then download_action_begin p.1 else p.1
  | .finish => if s.active_workers = 0 then s else download_action_end s

def app_init : AppState := ⟨false, 0⟩

def app_run (evs : List UiEvent) : AppState := evs.foldl app_step app_init

/-- Invariant tying the busy flag to the worker count. -/
def AppInv (s : AppState) : Prop :=
  s.active_workers ≤ 1 ∧ (s.downloading = true ↔ s.active_workers = 1)

lemma app_step_inv (s : AppState) (e : UiEvent) (h : AppInv s) :
    AppInv (app_step s e) := by
  obtain ⟨h1, h2⟩ := h
  cases e with
  | start =>
    by_cases hd : s.downloading = true
    · have heq : app_step s .start = s := by
        simp [app_step, start_download_thread, hd]
      rw [heq]
      exact ⟨h1, h2⟩
    · have hw : s.active_workers = 0 := by
        by_cases hw1 : s.active_workers = 1
        · exact absurd (h2.mpr hw1) hd
        · omega
      simp [app_step, start_download_thread, hd, download_action_begin, AppInv, hw]
  | finish =>
    by_cases hw : s.active_workers = 0
    · have heq : app_step s .finish = s := by
        simp [app_step, hw]
      rw [heq]
      exact ⟨h1, h2⟩
    · have hw1 : s.active_workers = 1 := by omega
      simp [app_step, hw, download_action_end, AppInv, hw1]

lemma app_run_inv (evs : List UiEvent) : AppInv (app_run evs) := by
  have : ∀ s : AppState, AppInv s → AppInv (evs.foldl app_step s) := by
    induction evs with
    | nil => intro s h; exact h
    | cons e evs ih =>
      intro s h
      exact ih (app_step s e) (app_step_inv s e h)
  exact this app_init (by constructor <;> simp [app_init])

/-! ## Claim theorems -/

/-- C1: for every sequence of progress events fed to one active
download (all state starting from the lazily-initialized 0/0), the
displayed percentages are non-decreasing up to and including the first
event whose displayed value is 100; a call that displays 100 leaves
both trackers reset to 0; and a raw value of 100 — what the hook sends
for a `finished` event — always displays as 100. -/
theorem c1_progress_display_monotone_then_reset :
    (∀ ps : List Int,
      List.Chain' (fun a b => a ≤ b)
        (take_upto_100 (run_displays initState ps))) ∧
    (∀ (s : ProgressState) (p : Int) (s' : ProgressState),
      update_progress s p = (s', some 100) → s' = initState) ∧
    (∀ s : ProgressState, (update_progress s 100).2 = some 100) ∧
    hook_percent HookEvent.finished = some 100 :=
  ⟨fun ps => (run_mono ps initState (by decide)).1,
   fun s p s' h => update_progress_reset s p s' h,
   fun s => update_progress_at_100 s, rfl⟩

theorem c1_progress_display_monotone_then_reset_w :
    List.Chain' (fun a b => a ≤ b)
      (take_upto_100 (run_displays initState [10, 40, 70, 20, 55, 90, 100])) ∧
    (⟨0, 0⟩ : ProgressState) = initState :=
  ⟨c1_progress_display_monotone_then_reset.1 [10, 40, 70, 20, 55, 90, 100],
   c1_progress_display_monotone_then_reset.2.1 ⟨70, 70⟩ 300 ⟨0, 0⟩ (by decide)⟩

/-- C2: for every video-target request whose quality selector parses to
a positive integer h, with ffmpeg available the built format expression
is exactly the height-bounded merge expression. -/
theorem c2_video_height_format (out_dir d fmt : String)
    (save_subs save_thumb save_meta : Bool) (quality_label : String)
    (mp3_bitrate : Option String) (h : Nat)
    (hq : parse_quality quality_label = some h) (hpos : 0 < h) :
    (build_opts out_dir (some d) fmt false save_subs save_thumb save_meta
        quality_label mp3_bitrate).1.format =
      some ("bestvideo[height<=" ++ toString h ++ "]+bestaudio/best[height<=" ++
        toString h ++ "]") := by
  have hne : quality_label ≠ "" := by
    rintro rfl
    rw [show parse_quality "" = none from rfl] at hq
    cases hq
  have hna : quality_label ≠ "auto" := by
    rintro rfl
    rw [show parse_quality "auto" = none from rfl] at hq
    cases hq
  cases save_meta <;> simp [build_opts, hq, hne, hna, video_format_expr]

theorem c2_video_height_format_w :
    (build_opts "out" (some "d") "mp4" false false false false "720"
        none).1.format =
      some ("bestvideo[height<=" ++ toString 720 ++ "]+bestaudio/best[height<=" ++
        toString 720 ++ "]") :=
  c2_video_height_format "out" "d" "mp4" false false false "720" none 720
    (by decide) (by decide)

/-- C3: for every audio-target request the record's format is
"bestaudio/best" with an FFmpegExtractAudio post-processor whose
preferredquality is the requested bitrate ("192" when unspecified,
where Python's falsy "" also counts as unspecified), and the builder
returns immediately — the quality selector has no effect at all. -/
theorem c3_audio_opts (out_dir : String) (ffmpeg : Option String) (fmt : String)
    (save_subs save_thumb save_meta : Bool) (quality_label : String)
    (mp3_bitrate : Option String) :
    ((build_opts out_dir ffmpeg fmt true save_subs save_thumb save_meta
        quality_label mp3_bitrate).1.format = some "bestaudio/best") ∧
    (mp3_bitrate = none →
      (build_opts out_dir ffmpeg fmt true save_subs save_thumb save_meta
          quality_label mp3_bitrate).1.postprocessors =
        [{ key := "FFmpegExtractAudio", preferredcodec := "mp3",
           preferredquality := "192" }]) ∧
    (∀ s, mp3_bitrate = some s → s ≠ "" →
      (build_opts out_dir ffmpeg fmt true save_subs save_thumb save_meta
          quality_label mp3_bitrate).1.postprocessors =
        [{ key := "FFmpegExtractAudio", preferredcodec := "mp3",
           preferredquality := s }]) ∧
    (∀ q2, build_opts out_dir ffmpeg fmt true save_subs save_thumb save_meta
        quality_label mp3_bitrate =
      build_opts out_dir ffmpeg fmt true save_subs save_thumb save_meta
        q2 mp3_bitrate) := by
  refine ⟨?_, ?_, ?_, ?_⟩
  · cases ffmpeg <;> rfl
  · rintro rfl
    cases ffmpeg <;> rfl
  · rintro s rfl hs
    cases ffmpeg <;> simp [build_opts, hs]
  · intro q2
    cases ffmpeg <;> rfl

theorem c3_audio_opts_w :
    (build_opts "out" (some "d") "mp3" true false false false "auto"
        (some "320")).1.format = some "bestaudio/best" ∧
    (build_opts "out" (some "d") "mp3" true false false false "auto"
        (some "320")).1.postprocessors =
      [{ key := "FFmpegExtractAudio", preferredcodec := "mp3",
         preferredquality := "320" }] :=
  ⟨(c3_audio_opts "out" (some "d") "mp3" false false false "auto"
      (some "320")).1,
   (c3_audio_opts "out" (some "d") "mp3" false false false "auto"
      (some "320")).2.2.1 "320" rfl (by decide)⟩

/-- C4: for every video-target request built while ffmpeg is missing,
the format expression is the single-file fallback regardless of the
quality selector, and exactly one fallback log line is emitted (the
builder's only log output on this path). -/
theorem c4_ffmpeg_missing_fallback (out_dir fmt : String)
    (save_subs save_thumb save_meta : Bool) (quality_label : String)
    (mp3_bitrate : Option String) :
    ((build_opts out_dir none fmt false save_subs save_thumb save_meta
        quality_label mp3_bitrate).1.format = some "best[ext=mp4]/best") ∧
    ((build_opts out_dir none fmt false save_subs save_thumb save_meta
        quality_label mp3_bitrate).2 = [fallback_log_line]) := by
  cases save_meta <;> exact ⟨rfl, rfl⟩

/-- C5 counterexample: an audio-target request with the metadata flag
set yields a record with NO sidecar-description and NO structured-info
directive, because the MP3 branch returns before the metadata block
(line 137 precedes lines 166-168). -/
theorem c5_audio_meta_counterexample :
    ¬ ((build_opts "out" (some "d") "mp3" true false false true "auto"
          (some "192")).1.writedescription = some true ∧
       (build_opts "out" (some "d") "mp3" true false false true "auto"
          (some "192")).1.writeinfojson = some true) := by
  decide

/-- C5 (amended): for every VIDEO-target request with the metadata flag
set, the record contains writedescription = true and writeinfojson =
true; audio-target requests return before the metadata block, so there
the directives are absent. -/
theorem c5_meta_sidecars_video (out_dir : String) (ffmpeg : Option String)
    (fmt : String) (save_subs save_thumb : Bool) (quality_label : String)
    (mp3_bitrate : Option String) :
    ((build_opts out_dir ffmpeg fmt false save_subs save_thumb true
        quality_label mp3_bitrate).1.writedescription = some true) ∧
    ((build_opts out_dir ffmpeg fmt false save_subs save_thumb true
        quality_label mp3_bitrate).1.writeinfojson = some true) := by
  cases ffmpeg <;> exact ⟨rfl, rfl⟩

/-- C6 (code evaluation at the failing input): the progress state is
NOT reset when a new download starts — `App._download_action` never
touches `_max_seen_pct`/`_stable_pct`, which are initialized once per
App — so after a first download reaches 70 and fails, the first raw
event 10 of the next download is clamped up to the stale max-seen and
displays as 70, not 10. -/
theorem c6_stale_max_seen_across_downloads :
    run_displays initState [70, 10] = [70, 70] ∧
    update_progress ⟨70, 70⟩ 10 = (⟨70, 70⟩, some 70) := by
  decide

/-- C7: every raw progress value outside [0, 1000] is discarded: the
state is unchanged and no value is displayed. -/
theorem c7_out_of_range_discarded (s : ProgressState) (p : Int)
    (h : p < 0 ∨ 1000 < p) : update_progress s p = (s, none) :=
  update_progress_out_of_range s p h

theorem c7_out_of_range_discarded_w :
    update_progress ⟨7, 7⟩ (-5) = (⟨7, 7⟩, none) ∧
    update_progress ⟨7, 7⟩ 1500 = (⟨7, 7⟩, none) :=
  ⟨c7_out_of_range_discarded ⟨7, 7⟩ (-5) (Or.inl (by decide)),
   c7_out_of_range_discarded ⟨7, 7⟩ 1500 (Or.inr (by decide))⟩

/-- C8: the builder is total by construction (a Lean function with no
failure channel, mirroring the try/except at lines 143-147); in video
mode a quality selector of "auto" or one with no digits (where
`int("")` would raise and is caught) yields format "best" when ffmpeg
is available. -/
theorem c8_unparsable_quality_degrades_to_best (out_dir d fmt : String)
    (save_subs save_thumb save_meta : Bool) (quality_label : String)
    (mp3_bitrate : Option String)
    (hq : quality_label = "auto" ∨ parse_quality quality_label = none) :
    (build_opts out_dir (some d) fmt false save_subs save_thumb save_meta
        quality_label mp3_bitrate).1.format = some "best" := by
  rcases hq with hq | hq
  · subst hq
    cases save_meta <;> rfl
  · by_cases he : quality_label = ""
    · subst he
      cases save_meta <;> rfl
    · by_cases ha : quality_label = "auto"
      · subst ha
        cases save_meta <;> rfl
      · cases save_meta <;> simp [build_opts, he, ha, hq]

theorem c8_unparsable_quality_degrades_to_best_w :
    (build_opts "out" (some "d") "mp4" false false false false "abc"
        none).1.format = some "best" :=
  c8_unparsable_quality_degrades_to_best "out" "d" "mp4" false false false
    "abc" none (Or.inr (by decide))

/-- C9: a start request issued while the busy flag is set is rejected
with no state change and no spawned worker; consequently, from the
initial state, any sequence of start/finish events keeps at most one
worker alive, and the flag is set exactly while that worker exists. -/
theorem c9_busy_flag_serializes :
    (∀ s : AppState, s.downloading = true →
      start_download_thread s = (s, false)) ∧
    (∀ evs : List UiEvent, (app_run evs).active_workers ≤ 1) ∧
    (∀ evs : List UiEvent,
      ((app_run evs).downloading = true ↔ (app_run evs).active_workers = 1)) :=
  ⟨fun s h => by simp [start_download_thread, h],
   fun evs => (app_run_inv evs).1,
   fun evs => (app_run_inv evs).2⟩

theorem c9_busy_flag_serializes_w :
    start_download_thread ⟨true, 1⟩ = (⟨true, 1⟩, false) ∧
    (app_run [UiEvent.start, UiEvent.start]).active_workers ≤ 1 :=
  ⟨c9_busy_flag_serializes.1 ⟨true, 1⟩ rfl,
   c9_busy_flag_serializes.2.1 [UiEvent.start, UiEvent.start]⟩

/-- C10: every options record carries an ffmpeg_location: the detected
ffmpeg directory when the tool is on PATH, and the hardcoded default
"C:\ffmpeg\bin" when it is not. -/
theorem c10_ffmpeg_location_always_present (out_dir fmt : String)
    (ffmpeg : Option String) (to_mp3 save_subs save_thumb save_meta : Bool)
    (quality_label : String) (mp3_bitrate : Option String) :
    (∀ d, ffmpeg = some d →
      (build_opts out_dir ffmpeg fmt to_mp3 save_subs save_thumb save_meta
          quality_label mp3_bitrate).1.ffmpeg_location = d) ∧
    (ffmpeg = none →
      (build_opts out_dir ffmpeg fmt to_mp3 save_subs save_thumb save_meta
          quality_label mp3_bitrate).1.ffmpeg_location = "C:\\ffmpeg\\bin") := by
  constructor
  · rintro d rfl
    cases to_mp3 <;> cases save_meta <;> rfl
  · rintro rfl
    cases to_mp3 <;> cases save_meta <;> rfl

theorem c10_ffmpeg_location_always_present_w :
    (build_opts "out" (some "/usr/bin") "mp4" false false false false "auto"
        none).1.ffmpeg_location = "/usr/bin" ∧
    (build_opts "out" none "mp4" false false false false "auto"
        none).1.ffmpeg_location = "C:\\ffmpeg\\bin" :=
  ⟨(c10_ffmpeg_location_always_present "out" "mp4" (some "/usr/bin") false
      false false false "auto" none).1 "/usr/bin" rfl,
   (c10_ffmpeg_location_always_present "out" "mp4" none false
      false false false "auto" none).2 rfl⟩
